import Mathlib

/-!
Verification of the Ducky code-review core: the change scanner
(`src/watcher/compare_versions.py`, `src/watcher/get_codebase.py`), the
pipeline executor and warning model (`src/code_review/utils/pipeline.py`,
`src/code_review/models/pipeline_models.py`, the agents under
`src/code_review/agents/`), and the pipeline coordinator
(`src/code_review/pipeline_coordinator.py`).

Python code is shallowly embedded: dataclasses and TypedDicts become
structures, mutation of `self` becomes explicit state passing, Python
floats used for confidence values become rationals (the operations the
code performs on them - comparison, addition, `min` with small decimal
literals - are exact), and calls into the LLM, the filesystem and the
database become explicit oracle parameters carrying the data the code
would have parsed out of those external responses.
-/

set_option linter.unusedVariables false
set_option linter.unreachableTactic false
set_option linter.unusedTactic false

namespace Ducky

/-! ## Data model: FileChange (src/watcher/compare_versions.py, lines 9-17)

`FileChange` is a TypedDict; every key is present on every value the code
builds, so it embeds as a plain structure.  Timestamps are ISO strings in
the source, compared after `datetime.fromisoformat`; the embedding carries
them as integers, which is order-faithful. -/

structure FileChange where
  filename : String
  path : String
  old_version : String
  new_version : String
  last_edit : Int
  is_dir : Bool
  is_new_file : Bool
  project_id : Nat
  deriving Repr, DecidableEq

/-! ## Pipeline coordinator (src/code_review/pipeline_coordinator.py)

The coordinator's mutable state is `self.running_pipelines : Set[int]`,
`self.max_concurrent_pipelines : int`, and the global chat-state service
(`src/services/chat_state_service.py`) it reads through
`is_chat_active()` / `get_chat_status()`.  Methods embed as functions
taking and returning the state; a method that assigns no field returns
the state it was given. -/

structure CoordinatorState where
  max_concurrent_pipelines : Nat
  running_pipelines : Finset Nat
  chat_active : Bool
  active_chat_notification_id : Option String
  deriving DecidableEq

/-- `PipelineCoordinator.is_pipeline_running` (lines 22-33): membership
test for a given project, else `len(self.running_pipelines) > 0`. -/
def is_pipeline_running (s : CoordinatorState) (project_id : Option Nat) :
    Bool × CoordinatorState :=
  match project_id with
  | some pid => (pid ∈ s.running_pipelines, s)
  | none => (0 < s.running_pipelines.card, s)

/-- `PipelineCoordinator.can_start_pipeline` (lines 35-62): false when chat
is active, when the project already has an in-flight run, or when the
in-flight count has reached `max_concurrent_pipelines`; true otherwise. -/
def can_start_pipeline (s : CoordinatorState) (project_id : Nat) :
    Bool × CoordinatorState :=
  if s.chat_active = true then (false, s)
  else if project_id ∈ s.running_pipelines then (false, s)
  else if s.max_concurrent_pipelines ≤ s.running_pipelines.card then (false, s)
  else (true, s)

/-- Status record returned by `PipelineCoordinator.get_pipeline_status`
(lines 157-172). -/
structure PipelineStatus where
  running_count : Nat
  max_concurrent : Nat
  running_project_ids : List Nat
  capacity_available : Bool
  chat_active : Bool
  active_chat_notification_id : Option String
  can_start_new_pipeline : Bool
  deriving DecidableEq

/-- `PipelineCoordinator.get_pipeline_status` (lines 157-172).  Python's
`list(self.running_pipelines)` enumerates the set in an unspecified
order; the embedding lists the elements in ascending order. -/
def get_pipeline_status (s : CoordinatorState) :
    PipelineStatus × CoordinatorState :=
  ({ running_count := s.running_pipelines.card
     max_concurrent := s.max_concurrent_pipelines
     running_project_ids := s.running_pipelines.sort (· ≤ ·)
     capacity_available := s.running_pipelines.card < s.max_concurrent_pipelines
     chat_active := s.chat_active
     active_chat_notification_id := s.active_chat_notification_id
     can_start_new_pipeline :=
       s.running_pipelines.card < s.max_concurrent_pipelines ∧ s.chat_active = false },
   s)

/-- `PipelineCoordinator.execute_if_available` (lines 64-101): checks
`can_start_pipeline`; on success adds the project to
`running_pipelines` and schedules `_execute_pipeline_with_cleanup` as a
fire-and-forget task (the task's later completion is modelled separately
by `execute_pipeline_with_cleanup`); on failure returns false having
changed nothing. -/
def execute_if_available (s : CoordinatorState) (changes : List FileChange)
    (project_id : Nat) : Bool × CoordinatorState :=
  let checked := can_start_pipeline s project_id
  if checked.1 = false then (false, checked.2)
  else (true, { checked.2 with
                running_pipelines := insert project_id checked.2.running_pipelines })

/-- The three ways the body of `_execute_pipeline_with_cleanup`
(lines 103-127) can end: `code_review_pipeline` returned a truthy
response (then `notify_user` runs), it returned `None`, or an exception
propagated into the `except` clause. -/
inductive PipelineRunOutcome where
  | produced
  | noOutput
  | raised
  deriving DecidableEq

/-- `PipelineCoordinator._execute_pipeline_with_cleanup` (lines 103-127):
none of the try/except branches touches coordinator state; the `finally`
clause runs `self.running_pipelines.discard(project_id)` on every path. -/
def execute_pipeline_with_cleanup (s : CoordinatorState) (project_id : Nat)
    (outcome : PipelineRunOutcome) : CoordinatorState :=
  let afterBody : CoordinatorState :=
    match outcome with
    | .produced => s
    | .noOutput => s
    | .raised => s
  { afterBody with running_pipelines := afterBody.running_pipelines.erase project_id }

end Ducky

namespace Ducky

/-- C1: whatever the outcome of a scheduled run (output produced, no
output, or an unhandled exception), `_execute_pipeline_with_cleanup`
leaves the coordinator with `project_id` removed from the in-flight set
`running_pipelines` - the set equals the erase of the prior set, with no
other coordinator field changed - so no project ID remains permanently
in-flight after its run ends. -/
theorem cleanup_always_removes_project (s : CoordinatorState) (project_id : Nat)
    (outcome : PipelineRunOutcome) :
    project_id ∉ (execute_pipeline_with_cleanup s project_id outcome).running_pipelines
    ∧ (execute_pipeline_with_cleanup s project_id outcome).running_pipelines
        = s.running_pipelines.erase project_id
    ∧ (execute_pipeline_with_cleanup s project_id outcome).max_concurrent_pipelines
        = s.max_concurrent_pipelines
    ∧ (execute_pipeline_with_cleanup s project_id outcome).chat_active = s.chat_active := by
  refine ⟨?_, ?_, ?_, ?_⟩ <;>
    cases outcome <;>
      simp [execute_pipeline_with_cleanup]

/-- C3: `can_start_pipeline` returns `False` exactly when chat is active,
or the project already has an in-flight run, or the in-flight count is at
least `max_concurrent_pipelines`; it returns `True` in every other
state.  In particular it is `False` for every project while chat is
active. -/
theorem can_start_pipeline_spec (s : CoordinatorState) (project_id : Nat) :
    ((can_start_pipeline s project_id).1 = false
      ↔ (s.chat_active = true ∨ project_id ∈ s.running_pipelines
          ∨ s.max_concurrent_pipelines ≤ s.running_pipelines.card))
    ∧ ((can_start_pipeline s project_id).1 = true
      ↔ (s.chat_active = false ∧ project_id ∉ s.running_pipelines
          ∧ s.running_pipelines.card < s.max_concurrent_pipelines)) := by
  unfold can_start_pipeline
  split_ifs with h1 h2 h3 <;> simp_all

/-- `can_start_pipeline` assigns no coordinator field, so it hands back
the state it was given (helper shared by several proofs). -/
theorem can_start_state_eq (s : CoordinatorState) (project_id : Nat) :
    (can_start_pipeline s project_id).2 = s := by
  unfold can_start_pipeline
  split_ifs <;> rfl

/-- C4: `execute_if_available` returns exactly the value of
`can_start_pipeline`; when that check passes it registers the project in
the in-flight set, and a second call for the same project on the
resulting state (no completion in between) returns `False`. -/
theorem execute_if_available_spec (s : CoordinatorState)
    (changes : List FileChange) (project_id : Nat) :
    ((execute_if_available s changes project_id).1
      = (can_start_pipeline s project_id).1)
    ∧ ((can_start_pipeline s project_id).1 = true →
        (execute_if_available s changes project_id).2.running_pipelines
          = insert project_id s.running_pipelines)
    ∧ ((execute_if_available s changes project_id).1 = true →
        (execute_if_available (execute_if_available s changes project_id).2
            changes project_id).1 = false) := by
  have hstate := can_start_state_eq s project_id
  cases hb : (can_start_pipeline s project_id).1 with
  | false =>
    refine ⟨?_, ?_, ?_⟩ <;>
      simp [execute_if_available, hb, hstate]
  | true =>
    have hins : (execute_if_available s changes project_id).2
        = { s with running_pipelines := insert project_id s.running_pipelines } := by
      simp [execute_if_available, hb, hstate]
    refine ⟨by simp [execute_if_available, hb, hstate], fun _ => by rw [hins], fun _ => ?_⟩
    rw [hins]
    have : (can_start_pipeline
        { s with running_pipelines := insert project_id s.running_pipelines }
        project_id).1 = false := by
      unfold can_start_pipeline
      split_ifs with h1 h2 <;> simp_all
    simp [execute_if_available, this, can_start_state_eq]

/-- Witness for C4 at a concrete state: capacity 1, nothing in flight,
chat inactive; the first call admits project 5 and the immediate second
call is refused. -/
theorem execute_if_available_spec_witness :
    (execute_if_available ⟨1, ∅, false, none⟩ [] 5).1 = true
    ∧ (execute_if_available (execute_if_available ⟨1, ∅, false, none⟩ [] 5).2
        [] 5).1 = false := by
  refine ⟨by decide, ?_⟩
  exact (execute_if_available_spec ⟨1, ∅, false, none⟩ [] 5).2.2 (by decide)

/-- C10: the query methods are pure with respect to coordinator state -
`can_start_pipeline`, `is_pipeline_running` and `get_pipeline_status`
return the state unchanged - and a call to `execute_if_available` that
returns `False` leaves the whole state exactly as it was. -/
theorem coordinator_queries_pure (s : CoordinatorState) (project_id : Nat)
    (opt_project : Option Nat) (changes : List FileChange) :
    (can_start_pipeline s project_id).2 = s
    ∧ (is_pipeline_running s opt_project).2 = s
    ∧ (get_pipeline_status s).2 = s
    ∧ ((execute_if_available s changes project_id).1 = false →
        (execute_if_available s changes project_id).2 = s) := by
  refine ⟨can_start_state_eq s project_id, ?_, rfl, ?_⟩
  · cases opt_project <;> rfl
  · intro hfalse
    cases hb : (can_start_pipeline s project_id).1 with
    | false => simp [execute_if_available, hb, can_start_state_eq]
    | true => simp [execute_if_available, hb] at hfalse

/-- Witness for C10 at a concrete state: with capacity 0 the call is
refused and the state (including the empty in-flight set) is returned
untouched. -/
theorem coordinator_queries_pure_witness :
    (execute_if_available ⟨0, ∅, false, none⟩ [] 3).1 = false
    ∧ (execute_if_available ⟨0, ∅, false, none⟩ [] 3).2 = ⟨0, ∅, false, none⟩ := by
  refine ⟨by decide, ?_⟩
  exact (coordinator_queries_pure ⟨0, ∅, false, none⟩ 3 none []).2.2.2 (by decide)

/-! ## Change scanner (src/watcher/compare_versions.py, get_codebase.py)

`get_changes(project_db, root_path, last_scan_timestamp)` walks the
filesystem through `get_codebase_metadata` and diffs against the
database snapshot `project_db.files`.  The embedding takes the walk's
result (a list of metadata entries) and the two environment functions the
code calls - `os.path.abspath` inside `normalize_path`, and
`read_file_content` (which returns `''` for unreadable/binary files) -
as parameters. -/

/-- One file record stored in the database snapshot
(src/database/models/files.py as used by compare_versions.py): `path`
(stored normalized), `name`, `content` (nullable) and `is_dir`. -/
structure DBFile where
  path : String
  name : String
  content : Option String
  is_dir : Bool
  deriving Repr, DecidableEq

/-- The slice of a `Project` row that `get_changes` reads: `id`,
`api_key` and the related `files`. -/
structure ScanProject where
  id : Nat
  api_key : String
  files : List DBFile
  deriving Repr, DecidableEq

/-- One entry of `get_codebase_metadata(root_path)['files']`
(src/watcher/get_codebase.py, lines 48-127): filename, modification
time, full path and directory flag; contents are not read. -/
structure LocalFileMeta where
  filename : String
  last_edit : Int
  full_path : String
  is_dir : Bool
  deriving Repr, DecidableEq

/-- `normalize_path` (src/database/utils/path_utils.py): `os.path.abspath`
followed by `.replace('\\', '/')`.  `abspath` is an environment call and
is passed in; the replacement pattern is a single character, so the
per-character map is exact. -/
def normalize_path (absPath : String → String) (path : String) : String :=
  String.mk ((absPath path).data.map (fun c => if c = '\\' then '/' else c))

/-- The dict comprehension `{file.path: file for file in project_db.files}`
(compare_versions.py, lines 41-43): later entries with the same path
overwrite earlier ones, so lookup returns the last match. -/
def db_files_lookup (files : List DBFile) (path : String) : Option DBFile :=
  files.reverse.find? (fun f => f.path = path)

/-- The items of that dict in Python iteration order: keys keep their
first-insertion position, values are the last write. -/
def db_files_items (files : List DBFile) : List DBFile :=
  files.foldl
    (fun acc f =>
      if acc.any (fun g => g.path = f.path) then
        acc.map (fun g => if g.path = f.path then f else g)
      else acc ++ [f])
    []

/-- The body of the first loop of `get_changes` (compare_versions.py,
lines 48-92), for one local metadata entry: skip directories already in
the snapshot, include new entries unconditionally and existing files
whose modification time is strictly later than the last scan, reading
content lazily only for included non-directories. -/
def scan_local_entry (absPath : String → String) (readContent : String → String)
    (project : ScanProject) (last_scan : Int) (file_data : LocalFileMeta) :
    Option FileChange :=
  let normalized_path := normalize_path absPath file_data.full_path
  let db_file := db_files_lookup project.files normalized_path
  let is_new := db_file.isNone
  if file_data.is_dir = true ∧ is_new = false then none
  else
    let should_include : Bool :=
      if is_new = true then true
      else if file_data.is_dir = false then decide (last_scan < file_data.last_edit)
      else false
    if should_include = true then
      some { filename := file_data.filename
             path := normalized_path
             old_version :=
               if is_new = true then ""
               else match db_file with
                    | none => ""
                    | some f => f.content.getD ""
             new_version :=
               if file_data.is_dir = true then ""
               else readContent file_data.full_path
             last_edit := file_data.last_edit
             is_dir := file_data.is_dir
             is_new_file := is_new
             project_id := project.id }
    else none

/-- The body of the second loop of `get_changes` (compare_versions.py,
lines 94-106): a snapshot entry matching no local path is emitted as a
deletion with empty `new_version`. -/
def scan_deleted_entry (absPath : String → String) (project : ScanProject)
    (localFiles : List LocalFileMeta) (now : Int) (db_file : DBFile) :
    Option FileChange :=
  if localFiles.any (fun f =>
      normalize_path absPath f.full_path = db_file.path) then none
  else
    some { filename := db_file.name
           path := db_file.path
           old_version := db_file.content.getD ""
           new_version := ""
           last_edit := now
           is_dir := db_file.is_dir
           is_new_file := false
           project_id := project.id }

/-- `get_changes` (src/watcher/compare_versions.py, lines 20-108).
`localFiles` is the metadata walk result, `readContent` embeds
`read_file_content`, `now` embeds `datetime.now()` used for deletion
timestamps, and a `none` scan timestamp short-circuits to `[]`. -/
def get_changes (absPath : String → String) (readContent : String → String)
    (project : ScanProject) (localFiles : List LocalFileMeta)
    (now : Int) (last_scan_timestamp : Option Int) : List FileChange :=
  match last_scan_timestamp with
  | none => []
  | some last_scan =>
    localFiles.filterMap (scan_local_entry absPath readContent project last_scan)
      ++ (db_files_items project.files).filterMap
          (scan_deleted_entry absPath project localFiles now)

/-- The snapshot lookup finds an entry exactly when some snapshot file
has the queried path. -/
theorem db_files_lookup_isSome (files : List DBFile) (p : String) :
    (db_files_lookup files p).isSome = true ↔ ∃ f ∈ files, f.path = p := by
  unfold db_files_lookup
  rw [List.find?_isSome]
  simp

/-- An already-snapshotted non-directory file whose modification time is
not after the last scan is filtered out of the first loop. -/
theorem scan_local_entry_eq_none (absPath readContent : String → String)
    (project : ScanProject) (T : Int) (g : LocalFileMeta) (dbf : DBFile)
    (hdir : g.is_dir = false)
    (heq : db_files_lookup project.files (normalize_path absPath g.full_path)
      = some dbf)
    (hle : g.last_edit ≤ T) :
    scan_local_entry absPath readContent project T g = none := by
  have hnlt : ¬ (T < g.last_edit) := not_lt.mpr hle
  simp [scan_local_entry, heq, hdir, hnlt]

/-- Every change the first loop emits carries the normalized path of the
local entry that produced it. -/
theorem scan_local_entry_path (absPath readContent : String → String)
    (project : ScanProject) (T : Int) (g : LocalFileMeta) (c : FileChange)
    (h : scan_local_entry absPath readContent project T g = some c) :
    c.path = normalize_path absPath g.full_path := by
  simp only [scan_local_entry] at h
  repeat' split at h
  all_goals first
    | exact Option.noConfusion h
    | (cases h; rfl)

/-- Every deletion the second loop emits carries the snapshot path of a
snapshot entry that matches no local path. -/
theorem scan_deleted_entry_path (absPath : String → String)
    (project : ScanProject) (localFiles : List LocalFileMeta) (now : Int)
    (dbf : DBFile) (c : FileChange)
    (h : scan_deleted_entry absPath project localFiles now dbf = some c) :
    c.path = dbf.path
    ∧ localFiles.any (fun f =>
        normalize_path absPath f.full_path = dbf.path) = false := by
  simp only [scan_deleted_entry] at h
  split at h
  · exact Option.noConfusion h
  · cases h
    refine ⟨rfl, ?_⟩
    simp_all

/-- C7: with `last_scan_timestamp = T`, a non-directory file that is on
disk and in the prior snapshot and whose modification time is at most
`T` never appears in the returned change list, while such a file whose
modification time is strictly greater than `T` does appear.  The walk is
assumed to list each file once (distinct entries have distinct
normalized paths), which `os.walk` guarantees. -/
theorem timestamp_filtering (absPath readContent : String → String)
    (project : ScanProject) (localFiles : List LocalFileMeta)
    (now T : Int) (fd : LocalFileMeta)
    (hmem : fd ∈ localFiles)
    (hfile : fd.is_dir = false)
    (hsnap : ∃ dbf ∈ project.files,
      dbf.path = normalize_path absPath fd.full_path)
    (hinj : ∀ g ∈ localFiles,
      normalize_path absPath g.full_path = normalize_path absPath fd.full_path →
        g = fd) :
    (fd.last_edit ≤ T →
      ∀ c ∈ get_changes absPath readContent project localFiles now (some T),
        c.path ≠ normalize_path absPath fd.full_path)
    ∧ (T < fd.last_edit →
      ∃ c ∈ get_changes absPath readContent project localFiles now (some T),
        c.path = normalize_path absPath fd.full_path) := by
  have hlook : (db_files_lookup project.files
      (normalize_path absPath fd.full_path)).isSome = true :=
    (db_files_lookup_isSome _ _).mpr hsnap
  obtain ⟨dbf, heq⟩ := Option.isSome_iff_exists.mp hlook
  constructor
  · intro hle c hc hpath
    unfold get_changes at hc
    rw [List.mem_append] at hc
    rcases hc with hc | hc
    · rcases List.mem_filterMap.mp hc with ⟨g, hg, hfg⟩
      have hcp := scan_local_entry_path absPath readContent project T g c hfg
      have hgfd : g = fd := hinj g hg (hcp ▸ hpath)
      subst hgfd
      rw [scan_local_entry_eq_none absPath readContent project T g dbf hfile heq hle]
        at hfg
      exact Option.noConfusion hfg
    · rcases List.mem_filterMap.mp hc with ⟨dbf', hdbf', hfg⟩
      obtain ⟨hcp, hnone⟩ :=
        scan_deleted_entry_path absPath project localFiles now dbf' c hfg
      have : localFiles.any (fun f =>
          normalize_path absPath f.full_path = dbf'.path) = true := by
        refine List.any_eq_true.mpr ⟨fd, hmem, ?_⟩
        simp [← hcp, hpath]
      rw [this] at hnone
      exact Bool.noConfusion hnone
  · intro hgt
    have hentry : ∃ c, scan_local_entry absPath readContent project T fd = some c
        ∧ c.path = normalize_path absPath fd.full_path := by
      simp [scan_local_entry, heq, hfile, hgt]
    obtain ⟨c, hc, hcp⟩ := hentry
    refine ⟨c, ?_, hcp⟩
    unfold get_changes
    exact List.mem_append.mpr (Or.inl (List.mem_filterMap.mpr ⟨fd, hmem, hc⟩))

/-- Witness for C7: one snapshotted file at `/r/a.py` with mtime 5; with
`T = 3` (strictly before the mtime) the scan's result contains a change
for that path. -/
theorem timestamp_filtering_witness :
    (get_changes (fun p => p) (fun _ => "new")
        ⟨1, "", [⟨"/r/a.py", "a.py", some "old", false⟩]⟩
        [⟨"a.py", 5, "/r/a.py", false⟩] 9 (some 3)).any
      (fun c => c.path == normalize_path (fun p => p) "/r/a.py") = true := by
  have h := (timestamp_filtering (fun p => p) (fun _ => "new")
    ⟨1, "", [⟨"/r/a.py", "a.py", some "old", false⟩]⟩
    [⟨"a.py", 5, "/r/a.py", false⟩] 9 3 ⟨"a.py", 5, "/r/a.py", false⟩
    (by decide)
    rfl
    ⟨⟨"/r/a.py", "a.py", some "old", false⟩, by decide, by decide⟩
    (by decide)).2 (by norm_num)
  rw [List.any_eq_true]
  obtain ⟨c, hc, hcp⟩ := h
  exact ⟨c, hc, by simp [hcp]⟩

/-- C8 counterexample: a newly created file whose content reads back
empty (empty or unreadable file - `read_file_content` returns `''`) IS
emitted as a `FileChange` with `is_new_file = true`, `new_version = ""`
and `is_dir = false`, violating the claimed data-model invariant. -/
theorem scanner_new_file_empty_emitted :
    get_changes (fun p => p) (fun _ => "") ⟨1, "", []⟩
        [⟨"a.py", 5, "/r/a.py", false⟩] 9 (some 0)
      = [⟨"a.py", "/r/a.py", "", "", 5, false, true, 1⟩]
    ∧ (FileChange.mk "a.py" "/r/a.py" "" "" 5 false true 1).is_new_file = true
    ∧ (FileChange.mk "a.py" "/r/a.py" "" "" 5 false true 1).new_version = ""
    ∧ (FileChange.mk "a.py" "/r/a.py" "" "" 5 false true 1).is_dir = false := by
  exact ⟨by decide, rfl, rfl, rfl⟩

/-- C8 amended: what the scanner does guarantee for new files is
`old_version = ""`; `new_version` is whatever `read_file_content`
returned and may be empty for an empty or unreadable new file, so the
claimed "non-empty `new_version` or directory" clause does not hold. -/
theorem new_file_changes_have_empty_old_version
    (absPath readContent : String → String) (project : ScanProject)
    (localFiles : List LocalFileMeta) (now : Int)
    (last_scan_timestamp : Option Int) (c : FileChange)
    (hc : c ∈ get_changes absPath readContent project localFiles now
      last_scan_timestamp)
    (hnew : c.is_new_file = true) :
    c.old_version = "" := by
  cases last_scan_timestamp with
  | none => simp [get_changes] at hc
  | some T =>
    unfold get_changes at hc
    rw [List.mem_append] at hc
    rcases hc with hc | hc
    · rcases List.mem_filterMap.mp hc with ⟨g, hg, hfg⟩
      simp only [scan_local_entry] at hfg
      repeat' split at hfg
      all_goals first
        | exact Option.noConfusion hfg
        | (cases hfg; simp_all)
    · rcases List.mem_filterMap.mp hc with ⟨dbf, hdbf, hfg⟩
      simp only [scan_deleted_entry] at hfg
      split at hfg
      · exact Option.noConfusion hfg
      · cases hfg
        simp_all

/-- Witness for C8's amended claim at the counterexample scenario: the
emitted new-file change indeed has an empty `old_version`. -/
theorem new_file_changes_have_empty_old_version_witness :
    (⟨"a.py", "/r/a.py", "", "", 5, false, true, 1⟩ : FileChange)
      ∈ get_changes (fun p => p) (fun _ => "") ⟨1, "", []⟩
          [⟨"a.py", 5, "/r/a.py", false⟩] 9 (some 0)
    ∧ (⟨"a.py", "/r/a.py", "", "", 5, false, true, 1⟩ : FileChange).old_version
        = "" := by
  refine ⟨by decide, ?_⟩
  exact new_file_changes_have_empty_old_version (fun p => p) (fun _ => "")
    ⟨1, "", []⟩ [⟨"a.py", 5, "/r/a.py", false⟩] 9 (some 0)
    ⟨"a.py", "/r/a.py", "", "", 5, false, true, 1⟩ (by decide) rfl

/-! ## Pipeline data model (src/code_review/models/pipeline_models.py)

The agents all import `WarningMessage` from `pipeline_models.py` (the one
with list-valued `description` and `metadata`).  Python float confidence
values become rationals; the code only compares, adds and takes `min` of
them.  A metadata entry is the record `add_agent_analysis` appends:
`agent`, `reasoning` and `confidence_impact` (the remaining dict keys -
timestamps, raw response excerpts, file counts - are opaque strings the
claims never inspect, so they are not carried). -/

/-- The `PipelineResult` enum (pipeline_models.py, lines 8-11). -/
inductive PipelineResult where
  | CONTINUE
  | CANCEL
  deriving Repr, DecidableEq

/-- One metadata record as appended by
`WarningMessage.add_agent_analysis` (pipeline_models.py, lines 25-33). -/
structure AgentAnalysis where
  agent : String
  reasoning : String
  confidence_impact : ℚ
  deriving Repr, DecidableEq

/-- `WarningMessage` (pipeline_models.py, lines 14-23). -/
structure WarningMessage where
  title : String := ""
  severity : String := "medium"
  description : List String := []
  suggestions : List String := []
  affected_files : List String := []
  confidence : ℚ := 0
  metadata : List AgentAnalysis := []
  deriving Repr, DecidableEq

/-- `WarningMessage.add_agent_analysis` (pipeline_models.py, lines
25-33): appends one record to `metadata`. -/
def add_agent_analysis (w : WarningMessage) (agent_name reasoning : String)
    (confidence_impact : ℚ) : WarningMessage :=
  { w with metadata := w.metadata ++ [⟨agent_name, reasoning, confidence_impact⟩] }

/-- `AgentContext` (src/code_review/utils/pipeline.py, lines 51-58):
`current_warning` is `Optional` and starts as `None`.  A `WarningMessage`
dataclass instance is always truthy in Python, so every
`if not context.current_warning` in the agents is exactly a `None`
test. -/
structure AgentContext where
  old_version : String
  new_version : String
  file_path : String
  project_id : Nat
  current_warning : Option WarningMessage := none
  deriving Repr, DecidableEq

/-- `PipelineOutput` (src/code_review/utils/pipeline.py, lines 43-48). -/
structure PipelineOutput where
  notification : String
  warning : WarningMessage
  solution : String
  deriving Repr, DecidableEq

/-! ## Agents (src/code_review/agents/)

Each agent's `analyze` wraps all its LLM, database and parsing work in
`try`/`except`, so it never raises into the executor.  The external
responses are supplied as oracle records: an optional field mirrors a
`dict.get` with its default, and an `Option` around a whole record
mirrors "the call raised" / "the response did not parse". -/

/-- Python `s[:n] + "..." if len(s) > n else s`. -/
def truncate_tail (n : Nat) (s : String) : String :=
  if n < s.length then String.mk (s.data.take n) ++ "..." else s

/-- The fields `InitialAssessment._parse_response`
(initial_assessment.py, lines 122-177) reads from the parsed JSON dict;
`none` means the key is absent and the `.get` default applies. -/
structure InitialParsed where
  should_continue : Bool := true
  title : Option String := none
  severity : Option String := none
  confidence : Option ℚ := none
  description : Option String := none
  reasoning : Option String := none
  suggestions : List String := []
  deriving Repr, DecidableEq

/-- External inputs of one `InitialAssessment.analyze` run:
`is_trivial` is the value of the pure predicate
`_is_trivial_change(old, new)` (whitespace/comment-stripping heuristics
whose internals no claim depends on); `llm = none` means `_call_llm`
raised; `some (response, none)` means the response text did not parse as
JSON; `some (response, some d)` is a parsed dict. -/
structure InitialOracle where
  is_trivial : Bool
  llm : Option (String × Option InitialParsed)
  llm_error : String := ""
  deriving Repr, DecidableEq

/-- `InitialAssessment._parse_response` (initial_assessment.py, lines
122-177): on parse failure, a fallback warning built from the raw
response; on `should_continue` false, `None`; otherwise a fresh warning
populated from the dict with the code's `.get` defaults, confidence
taken as-is (no clamping). -/
def initial_parse_response (response : String) (parsed : Option InitialParsed)
    (context : AgentContext) : Option WarningMessage :=
  match parsed with
  | some d =>
    if d.should_continue = false then none
    else
      some { title := d.title.getD "Code change requires review"
             severity := d.severity.getD "medium"
             confidence := d.confidence.getD (1/2)
             description := [d.description.getD "Potential issues detected"]
             affected_files := [context.file_path]
             suggestions := d.suggestions
             metadata := [⟨"InitialAssessment", d.reasoning.getD "",
                           d.confidence.getD (1/2)⟩] }
  | none =>
    some { title := "Code change requires review"
           severity := "medium"
           description := [truncate_tail 500 response]
           affected_files := [context.file_path]
           confidence := 1/2
           suggestions := []
           metadata := [⟨"InitialAssessment", "Failed to parse structured response",
                         1/2⟩] }

/-- `InitialAssessment.analyze` (initial_assessment.py, lines 18-71):
cancel on trivial change; fallback warning (confidence 0.3) when the LLM
call raises; cancel when the parsed response says stop; otherwise the
parsed warning. -/
def initial_assessment_analyze (o : InitialOracle) (context : AgentContext) :
    PipelineResult × Option WarningMessage :=
  if o.is_trivial = true then (.CANCEL, none)
  else
    match o.llm with
    | none =>
      (.CONTINUE, some
        { title := "Code change requires review"
          severity := "medium"
          description := ["Unable to perform detailed analysis, manual review recommended"]
          affected_files := [context.file_path]
          confidence := 3/10
          suggestions := []
          metadata := [⟨"InitialAssessment", "LLM analysis failed: " ++ o.llm_error,
                        3/10⟩] })
    | some (response, parsed) =>
      match initial_parse_response response parsed context with
      | none => (.CANCEL, none)
      | some warning => (.CONTINUE, some warning)

/-- External inputs of one `NotificationAssessment.analyze` run
(notification_assessment.py, lines 18-49): whether the dismissal query
raised, whether it returned no rows, and the decision of
`_should_notify_user` (which already defaults to `True` on its own LLM
and parse errors). -/
structure NotifAssessOracle where
  db_raised : Bool := false
  dismissals_empty : Bool := true
  should_notify : Bool := true
  deriving Repr, DecidableEq

/-- `NotificationAssessment.analyze` (notification_assessment.py, lines
18-49): passes the current warning through unless the dismissal history
says to suppress, in which case it cancels. -/
def notification_assessment_analyze (o : NotifAssessOracle)
    (context : AgentContext) : PipelineResult × Option WarningMessage :=
  match context.current_warning with
  | none => (.CONTINUE, none)
  | some w =>
    if o.db_raised = true then (.CONTINUE, some w)
    else if o.dismissals_empty = true then (.CONTINUE, some w)
    else if o.should_notify = false then (.CANCEL, none)
    else (.CONTINUE, some w)

/-- The fields `ContextAwareness._parse_context_analysis` and
`_enhance_warning_with_context` read from the final analysis dict
(context_awareness.py, lines 420-474). -/
structure CtxAnalysisParsed where
  cancel_pipeline : Bool := false
  context_insights : Option String := none
  justification : Option String := none
  additional_context : Option String := none
  architectural_notes : Option String := none
  new_suggestions : List String := []
  confidence_impact : Option ℚ := none
  deriving Repr, DecidableEq

/-- Python truthiness of `analysis.get(key)` for a string-valued key:
missing (`None`) and `""` are falsy. -/
def py_truthy_str (o : Option String) : Bool :=
  o.getD "" ≠ ""

/-- External inputs of one `ContextAwareness.analyze` run
(context_awareness.py, lines 50-99): the RAG-needed assessment (defaults
true on error), whether the retrieval loop obtained at least one file
and how many, the final analysis dict (`none` when `_get_final_analysis`
raised into `_synthesize_final_result`'s handler), and whether an
exception reached `analyze`'s own handler. -/
structure ContextOracle where
  outer_raised : Bool := false
  needs_rag : Bool := true
  files_retrieved : Bool := false
  file_count : Nat := 0
  final_analysis : Option CtxAnalysisParsed := none
  deriving Repr, DecidableEq

/-- `ContextAwareness._enhance_warning_with_context`
(context_awareness.py, lines 441-474): appends up to two description
entries, extends suggestions, appends one metadata record, then sets
`confidence = min(1.0, confidence + confidence_impact)` - an upper clamp
only. -/
def enhance_warning_with_context (warning : WarningMessage)
    (analysis : CtxAnalysisParsed) (file_count : Nat) : WarningMessage :=
  let w1 :=
    if py_truthy_str analysis.additional_context = true then
      { warning with description := warning.description
          ++ ["Context: " ++ analysis.additional_context.getD ""] }
    else warning
  let w2 :=
    if py_truthy_str analysis.context_insights = true then
      { w1 with description := w1.description
          ++ ["Broader insights: " ++ analysis.context_insights.getD ""] }
    else w1
  let w3 :=
    if analysis.new_suggestions ≠ [] then
      { w2 with suggestions := w2.suggestions ++ analysis.new_suggestions }
    else w2
  let w4 :=
    if py_truthy_str analysis.justification = true then
      { w3 with suggestions := w3.suggestions
          ++ ["Architectural context: " ++ analysis.justification.getD ""] }
    else w3
  let w5 := add_agent_analysis w4 "ContextAwareness"
    (analysis.context_insights.getD "") (analysis.confidence_impact.getD (1/10))
  { w5 with
    confidence := min 1 (w5.confidence + analysis.confidence_impact.getD (1/10)) }

/-- `ContextAwareness._synthesize_final_result` (context_awareness.py,
lines 286-313): pass-through when no files were retrieved or when the
final analysis raised; cancel when it says the change is justified;
otherwise the enhanced warning. -/
def synthesize_final_result (o : ContextOracle) (w : WarningMessage) :
    PipelineResult × Option WarningMessage :=
  if o.files_retrieved = false then (.CONTINUE, some w)
  else
    match o.final_analysis with
    | none => (.CONTINUE, some w)
    | some a =>
      if a.cancel_pipeline = true then (.CANCEL, none)
      else (.CONTINUE, some (enhance_warning_with_context w a o.file_count))

/-- `ContextAwareness.analyze` (context_awareness.py, lines 50-99):
pass-through when there is no warning, when no broader context is
needed, or on a caught exception; otherwise `_synthesize_final_result`
decides. -/
def context_awareness_analyze (o : ContextOracle) (context : AgentContext) :
    PipelineResult × Option WarningMessage :=
  match context.current_warning with
  | none => (.CONTINUE, none)
  | some w =>
    if o.outer_raised = true then (.CONTINUE, some w)
    else if o.needs_rag = false then (.CONTINUE, some w)
    else synthesize_final_result o w

/-- `SyntaxValidation.analyze` (syntax_validation.py, lines 24-63).  In
`_enhance_warning_with_syntax` the call
`enhanced_warning = warning.add_agent_analysis(...)` mutates the shared
warning (one appended metadata record) but returns `None`, so the next
line's attribute assignment raises `AttributeError`; `analyze`'s own
handler then appends a second, error record and returns the warning.
Net effect on every run with a warning: two appended metadata records
(both with empty reasoning and zero confidence impact, matching the
`.get` defaults of `add_agent_analysis`), and the severity adjustment
never lands. -/
def syn_validation_analyze (context : AgentContext) :
    PipelineResult × Option WarningMessage :=
  match context.current_warning with
  | none => (.CONTINUE, none)
  | some w =>
    let w1 := add_agent_analysis w "SyntaxValidation" "" 0
    let w2 := add_agent_analysis w1 "SyntaxValidation" "" 0
    (.CONTINUE, some w2)

/-- `NotificationWriter.analyze` (notification_writer.py, lines 22-41):
returns `CONTINUE` with a notification string on every path - the
default text when there is no warning, else the output of
`_generate_friendly_notification` (which catches its own LLM errors and
falls back to canned text; `text` abstracts that result). -/
def notification_writer_analyze (text : String) (context : AgentContext) :
    PipelineResult × String :=
  match context.current_warning with
  | none => (.CONTINUE,
      "Hey! I noticed some changes in your code that might need attention. Let\x27s chat about it!")
  | some _ => (.CONTINUE, text)

/-- `CodeWriter.analyze` (code_writer.py, lines 23-42): returns
`CONTINUE` with a solution string on every path - a commented copy of
the new version when there is no warning, else the output of
`_generate_code_solution` (which catches its own LLM errors; `text`
abstracts that result). -/
def code_writer_analyze (text : String) (context : AgentContext) :
    PipelineResult × String :=
  match context.current_warning with
  | none => (.CONTINUE, "# Original code\n" ++ context.new_version)
  | some _ => (.CONTINUE, text)

/-! ## Pipeline executor (src/code_review/utils/pipeline.py, lines
182-330)

`CodeReviewPipeline.execute` iterates a fixed agent list.  For each
agent it checks `should_process`, then dispatches on `isinstance`: a
`NotificationWriter` result is captured into `notification`, a
`CodeWriter` result into `solution`, and only the remaining ("standard")
branch checks the returned signal for `CANCEL` and stores the returned
warning into `context.current_warning`.  An exception from a stage is
caught and the loop continues.

A `Stage` is one agent as the executor sees it: its name, which
`isinstance` branch it takes, its `should_process`, and `analyze`
returning `none` when it raises.  `analyze` results carry both a warning
slot and a text slot; the executor reads the one its branch unpacks,
exactly as the Python tuple unpacking does.  The executor here also
returns a trace - one entry per agent whose `analyze` ran, with the
value of `context.current_warning` right after that agent - used to
state "no later stage executes" and the per-stage invariants. -/

/-- Which `isinstance` branch of the executor loop handles the agent. -/
inductive AgentKind where
  | standard
  | notification_writer
  | code_writer
  deriving Repr, DecidableEq

/-- The pair an agent's `analyze` returns, as the executor unpacks it. -/
structure AnalyzeResult where
  signal : PipelineResult
  warning : Option WarningMessage := none
  text : String := ""
  deriving Repr, DecidableEq

/-- One agent from the executor's point of view. -/
structure Stage where
  name : String
  kind : AgentKind
  should_process : AgentContext → Bool
  analyze : AgentContext → Option AnalyzeResult

/-- The executor's loop state: the shared context plus the two captured
terminal strings (initialized to `""` at lines 266-267). -/
structure ExecState where
  context : AgentContext
  notification : String
  solution : String

/-- The agent loop of `CodeReviewPipeline.execute` (utils/pipeline.py,
lines 269-314), with an execution trace.  The first component is `none`
when a standard-branch agent returned `CANCEL` (the `return None` at
line 302); the trace records each agent whose `analyze` was invoked
together with `context.current_warning` immediately afterwards. -/
def exec_stages : List Stage → ExecState →
    Option ExecState × List (String × Option WarningMessage)
  | [], st => (some st, [])
  | stage :: rest, st =>
    if stage.should_process st.context = false then exec_stages rest st
    else
      match stage.analyze st.context with
      | none =>
        ((exec_stages rest st).1,
         (stage.name, st.context.current_warning) :: (exec_stages rest st).2)
      | some res =>
        match stage.kind with
        | .notification_writer =>
          ((exec_stages rest { st with notification := res.text }).1,
           (stage.name, st.context.current_warning)
             :: (exec_stages rest { st with notification := res.text }).2)
        | .code_writer =>
          ((exec_stages rest { st with solution := res.text }).1,
           (stage.name, st.context.current_warning)
             :: (exec_stages rest { st with solution := res.text }).2)
        | .standard =>
          if res.signal = .CANCEL then
            (none, [(stage.name, st.context.current_warning)])
          else
            ((exec_stages rest { st with
                context := { st.context with current_warning := res.warning } }).1,
             (stage.name, res.warning)
               :: (exec_stages rest { st with
                    context := { st.context with current_warning := res.warning } }).2)

/-- The `AgentContext` built at utils/pipeline.py lines 259-264:
`current_warning` is not passed, so it starts as `None`. -/
def init_context (change : FileChange) (project_id : Nat) : AgentContext :=
  { old_version := change.old_version
    new_version := change.new_version
    file_path := change.path
    project_id := project_id
    current_warning := none }

/-- `CodeReviewPipeline.execute` (utils/pipeline.py, lines 196-330):
empty change list and the three content-validation rejections return
`None`; then the agent loop runs; at the end a `PipelineOutput` is built
iff `context.current_warning` is truthy, which for an `Optional`
dataclass field means: not `None` (lines 320-330). -/
def execute (stages : List Stage) (changes : List FileChange)
    (project_id : Nat) : Option PipelineOutput :=
  match changes with
  | [] => none
  | change :: _ =>
    if change.old_version = "" ∧ change.new_version = "" then none
    else if change.is_new_file = true ∧ change.new_version.trim = "" then none
    else if change.is_new_file = false ∧ change.old_version = ""
        ∧ change.new_version = "" then none
    else
      match (exec_stages stages ⟨init_context change project_id, "", ""⟩).1 with
      | none => none
      | some st =>
        match st.context.current_warning with
        | none => none
        | some warning => some ⟨st.notification, warning, st.solution⟩

/-! The concrete agent list built in `CodeReviewPipeline.__init__`
(utils/pipeline.py, lines 185-193).  No agent overrides
`should_process` (the base default at utils/pipeline.py line 129-131
returns `True`), and every agent's `analyze` catches its own exceptions,
so none of them ever raises into the executor. -/

/-- One external-input record for a whole pipeline run. -/
structure PipelineOracle where
  initial : InitialOracle
  notif_assess : NotifAssessOracle
  context : ContextOracle
  notification_text : String
  solution_text : String
  deriving Repr, DecidableEq

def initial_assessment_stage (o : InitialOracle) : Stage :=
  { name := "InitialAssessment"
    kind := .standard
    should_process := fun _ => true
    analyze := fun ctx =>
      some ⟨(initial_assessment_analyze o ctx).1,
            (initial_assessment_analyze o ctx).2, ""⟩ }

def notification_assessment_stage (o : NotifAssessOracle) : Stage :=
  { name := "NotificationAssessment"
    kind := .standard
    should_process := fun _ => true
    analyze := fun ctx =>
      some ⟨(notification_assessment_analyze o ctx).1,
            (notification_assessment_analyze o ctx).2, ""⟩ }

def context_awareness_stage (o : ContextOracle) : Stage :=
  { name := "ContextAwareness"
    kind := .standard
    should_process := fun _ => true
    analyze := fun ctx =>
      some ⟨(context_awareness_analyze o ctx).1,
            (context_awareness_analyze o ctx).2, ""⟩ }

def syn_validation_stage : Stage :=
  { name := "SyntaxValidation"
    kind := .standard
    should_process := fun _ => true
    analyze := fun ctx =>
      some ⟨(syn_validation_analyze ctx).1, (syn_validation_analyze ctx).2, ""⟩ }

def notification_writer_stage (text : String) : Stage :=
  { name := "NotificationWriter"
    kind := .notification_writer
    should_process := fun _ => true
    analyze := fun ctx =>
      some ⟨(notification_writer_analyze text ctx).1, none,
            (notification_writer_analyze text ctx).2⟩ }

def code_writer_stage (text : String) : Stage :=
  { name := "CodeWriter"
    kind := .code_writer
    should_process := fun _ => true
    analyze := fun ctx =>
      some ⟨(code_writer_analyze text ctx).1, none,
            (code_writer_analyze text ctx).2⟩ }

/-- The ordered agent list of `CodeReviewPipeline.__init__`
(utils/pipeline.py, lines 186-193). -/
def pipeline_agents (o : PipelineOracle) : List Stage :=
  [initial_assessment_stage o.initial,
   notification_assessment_stage o.notif_assess,
   context_awareness_stage o.context,
   syn_validation_stage,
   notification_writer_stage o.notification_text,
   code_writer_stage o.solution_text]

/-- If a prefix of the stage list runs to state `st'` and the next stage
is handled by the standard branch, runs, and returns `CANCEL`, the whole
run returns `none` with a trace that ends at that stage - independent of
`post`, so no later stage's `should_process` or `analyze` is ever
consulted. -/
theorem exec_stages_cancel (pre : List Stage) (s : Stage) (post : List Stage)
    (st st' : ExecState) (tr : List (String × Option WarningMessage))
    (res : AnalyzeResult)
    (hpre : exec_stages pre st = (some st', tr))
    (hsp : s.should_process st'.context = true)
    (hres : s.analyze st'.context = some res)
    (hsig : res.signal = .CANCEL)
    (hkind : s.kind = .standard) :
    exec_stages (pre ++ s :: post) st
      = (none, tr ++ [(s.name, st'.context.current_warning)]) := by
  induction pre generalizing st tr with
  | nil =>
    have h1 : some st = some st' := congrArg Prod.fst hpre
    have h2 : ([] : List (String × Option WarningMessage)) = tr :=
      congrArg Prod.snd hpre
    obtain rfl : st = st' := Option.some.inj h1
    subst h2
    simp [exec_stages, hsp, hres, hkind, hsig]
  | cons a pre ih =>
    rw [List.cons_append]
    by_cases hasp : a.should_process st.context = false
    · simp only [exec_stages, if_pos hasp] at hpre ⊢
      exact ih st tr hpre
    · simp only [exec_stages, if_neg hasp] at hpre ⊢
      cases hana : a.analyze st.context with
      | none =>
        simp only [hana] at hpre ⊢
        rw [Prod.mk.injEq] at hpre
        obtain ⟨h1, h2⟩ := hpre
        have hpre2 : exec_stages pre st = (some st', (exec_stages pre st).2) := by
          rw [← h1]
        have hih := ih st (exec_stages pre st).2 hpre2
        rw [hih, ← h2]
        simp
      | some res' =>
        simp only [hana] at hpre ⊢
        cases hkind' : a.kind with
        | notification_writer =>
          simp only [hkind'] at hpre ⊢
          rw [Prod.mk.injEq] at hpre
          obtain ⟨h1, h2⟩ := hpre
          have hpre2 : exec_stages pre { st with notification := res'.text }
              = (some st', (exec_stages pre { st with notification := res'.text }).2) := by
            rw [← h1]
          have hih := ih _ _ hpre2
          rw [hih, ← h2]
          simp
        | code_writer =>
          simp only [hkind'] at hpre ⊢
          rw [Prod.mk.injEq] at hpre
          obtain ⟨h1, h2⟩ := hpre
          have hpre2 : exec_stages pre { st with solution := res'.text }
              = (some st', (exec_stages pre { st with solution := res'.text }).2) := by
            rw [← h1]
          have hih := ih _ _ hpre2
          rw [hih, ← h2]
          simp
        | standard =>
          simp only [hkind'] at hpre ⊢
          by_cases hsig' : res'.signal = .CANCEL
          · rw [if_pos hsig'] at hpre
            exact absurd (congrArg Prod.fst hpre) (by simp)
          · rw [if_neg hsig'] at hpre ⊢
            rw [Prod.mk.injEq] at hpre
            obtain ⟨h1, h2⟩ := hpre
            have hpre2 : exec_stages pre { st with
                context := { st.context with current_warning := res'.warning } }
                = (some st', (exec_stages pre { st with
                    context := { st.context with current_warning := res'.warning } }).2) := by
              rw [← h1]
            have hih := ih _ _ hpre2
            rw [hih, ← h2]
            simp

/-- If the agent loop cancelled, `execute` returns `None` (it also does
when validation rejects the change, so no hypothesis on the change is
needed beyond the loop result). -/
theorem execute_none_of_cancel (stages : List Stage) (change : FileChange)
    (rest : List FileChange) (project_id : Nat)
    (h : (exec_stages stages ⟨init_context change project_id, "", ""⟩).1 = none) :
    execute stages (change :: rest) project_id = none := by
  simp [execute, h]

/-- One-step unfolding of the loop at a stage the standard branch
handles: either it cancels, or the loop continues with the returned
warning stored in the context. -/
theorem exec_stages_cons_standard (a : Stage) (rest : List Stage)
    (st : ExecState) (res : AnalyzeResult)
    (hsp : a.should_process st.context = true)
    (hana : a.analyze st.context = some res)
    (hkind : a.kind = .standard) :
    exec_stages (a :: rest) st
      = if res.signal = .CANCEL then
          (none, [(a.name, st.context.current_warning)])
        else
          ((exec_stages rest { st with
              context := { st.context with current_warning := res.warning } }).1,
           (a.name, res.warning)
             :: (exec_stages rest { st with
                  context := { st.context with current_warning := res.warning } }).2) := by
  simp only [exec_stages, hsp, hana, hkind]
  rw [if_neg (by simp)]

/-- `NotificationWriter.analyze` returns `CONTINUE` on every path. -/
theorem notification_writer_analyze_signal (text : String) (ctx : AgentContext) :
    (notification_writer_analyze text ctx).1 = .CONTINUE := by
  cases h : ctx.current_warning <;> simp [notification_writer_analyze, h]

/-- `CodeWriter.analyze` returns `CONTINUE` on every path. -/
theorem code_writer_analyze_signal (text : String) (ctx : AgentContext) :
    (code_writer_analyze text ctx).1 = .CONTINUE := by
  cases h : ctx.current_warning <;> simp [code_writer_analyze, h]

/-- C2: for every stage of the pipeline's ordered agent list and every
context reached during a run, if that stage's `analyze` returns `CANCEL`
then the loop stops there - the trace ends at that stage independently
of the stages after it, so none of them executes - and `execute` returns
`None`.  The two terminal stages are covered because their `analyze`
never returns `CANCEL` (their `isinstance` branches do not inspect the
signal, but as implemented they return `CONTINUE` on every path). -/
theorem pipeline_early_exit (o : PipelineOracle) (pre : List Stage) (s : Stage)
    (post : List Stage) (change : FileChange) (rest : List FileChange)
    (project_id : Nat) (st' : ExecState)
    (tr : List (String × Option WarningMessage)) (res : AnalyzeResult)
    (hsplit : pipeline_agents o = pre ++ s :: post)
    (hpre : exec_stages pre ⟨init_context change project_id, "", ""⟩
      = (some st', tr))
    (hres : s.analyze st'.context = some res)
    (hsig : res.signal = .CANCEL) :
    exec_stages (pipeline_agents o) ⟨init_context change project_id, "", ""⟩
      = (none, tr ++ [(s.name, st'.context.current_warning)])
    ∧ execute (pipeline_agents o) (change :: rest) project_id = none := by
  have hmem : s ∈ pipeline_agents o := by
    rw [hsplit]
    exact List.mem_append.mpr (Or.inr (List.mem_cons_self _ _))
  have hks : s.kind = .standard ∧ s.should_process st'.context = true := by
    simp only [pipeline_agents, List.mem_cons, List.not_mem_nil, or_false] at hmem
    rcases hmem with h | h | h | h | h | h <;> subst h
    · exact ⟨rfl, rfl⟩
    · exact ⟨rfl, rfl⟩
    · exact ⟨rfl, rfl⟩
    · exact ⟨rfl, rfl⟩
    · exfalso
      simp only [notification_writer_stage, Option.some.injEq] at hres
      rw [← hres] at hsig
      have hcont := notification_writer_analyze_signal o.notification_text st'.context
      simp [hcont] at hsig
    · exfalso
      simp only [code_writer_stage, Option.some.injEq] at hres
      rw [← hres] at hsig
      have hcont := code_writer_analyze_signal o.solution_text st'.context
      simp [hcont] at hsig
  obtain ⟨hk, hsp⟩ := hks
  have hmain := exec_stages_cancel pre s post _ st' tr res hpre hsp hres hsig hk
  refine ⟨?_, ?_⟩
  · rw [hsplit]
    exact hmain
  · apply execute_none_of_cancel
    rw [hsplit, hmain]

/-- Witness for C2: a trivial change makes the first stage cancel; the
trace stops after `InitialAssessment` and the run yields no output. -/
theorem pipeline_early_exit_witness :
    exec_stages (pipeline_agents ⟨⟨true, none, ""⟩, ⟨false, true, true⟩,
        ⟨false, true, false, 0, none⟩, "n", "c"⟩)
      ⟨init_context ⟨"f.py", "/p/f.py", "a", "b", 1, false, false, 1⟩ 1, "", ""⟩
      = (none, [] ++ [("InitialAssessment", none)])
    ∧ execute (pipeline_agents ⟨⟨true, none, ""⟩, ⟨false, true, true⟩,
        ⟨false, true, false, 0, none⟩, "n", "c"⟩)
        [⟨"f.py", "/p/f.py", "a", "b", 1, false, false, 1⟩] 1 = none := by
  exact pipeline_early_exit
    ⟨⟨true, none, ""⟩, ⟨false, true, true⟩, ⟨false, true, false, 0, none⟩, "n", "c"⟩
    [] (initial_assessment_stage ⟨true, none, ""⟩)
    [notification_assessment_stage ⟨false, true, true⟩,
     context_awareness_stage ⟨false, true, false, 0, none⟩,
     syn_validation_stage, notification_writer_stage "n", code_writer_stage "c"]
    ⟨"f.py", "/p/f.py", "a", "b", 1, false, false, 1⟩ [] 1
    ⟨init_context ⟨"f.py", "/p/f.py", "a", "b", 1, false, false, 1⟩ 1, "", ""⟩
    [] ⟨.CANCEL, none, ""⟩ rfl rfl rfl rfl

/-- C5 amended: when the loop reaches the end of the stage list,
`execute` emits a `PipelineOutput` iff `context.current_warning` is set
(not `None`) - the title plays no role and may be empty - and the output
combines exactly that warning with the captured notification and
solution strings; if no warning was ever set, `execute` returns
`None`. -/
theorem pipeline_output_iff_warning (stages : List Stage) (change : FileChange)
    (rest : List FileChange) (project_id : Nat) (st : ExecState)
    (h1 : ¬(change.old_version = "" ∧ change.new_version = ""))
    (h2 : ¬(change.is_new_file = true ∧ change.new_version.trim = ""))
    (hrun : (exec_stages stages ⟨init_context change project_id, "", ""⟩).1
      = some st) :
    ((execute stages (change :: rest) project_id).isSome = true
      ↔ st.context.current_warning.isSome = true)
    ∧ execute stages (change :: rest) project_id
        = st.context.current_warning.map
            (fun warning => ⟨st.notification, warning, st.solution⟩) := by
  have h3 : ¬(change.is_new_file = false ∧ change.old_version = ""
      ∧ change.new_version = "") := by
    intro h
    exact h1 ⟨h.2.1, h.2.2⟩
  have hrw : execute stages (change :: rest) project_id
      = st.context.current_warning.map
          (fun warning => ⟨st.notification, warning, st.solution⟩) := by
    simp only [execute, if_neg h1, if_neg h2, if_neg h3, hrun]
    cases hw : st.context.current_warning <;> simp
  refine ⟨?_, hrw⟩
  rw [hrw]
  cases hw : st.context.current_warning <;> simp

/-- Witness for C5's amended claim: a valid change, the empty stage list,
the loop ends with `current_warning` still `None`, and `execute` returns
`None` accordingly. -/
theorem pipeline_output_iff_warning_witness :
    ((execute [] [⟨"f.py", "/p/f.py", "a", "b", 1, false, false, 1⟩] 1).isSome
        = true
      ↔ (ExecState.mk
          (init_context ⟨"f.py", "/p/f.py", "a", "b", 1, false, false, 1⟩ 1)
          "" "").context.current_warning.isSome = true)
    ∧ execute [] [⟨"f.py", "/p/f.py", "a", "b", 1, false, false, 1⟩] 1
        = (ExecState.mk
            (init_context ⟨"f.py", "/p/f.py", "a", "b", 1, false, false, 1⟩ 1)
            "" "").context.current_warning.map
            (fun warning =>
              ⟨(ExecState.mk
                  (init_context ⟨"f.py", "/p/f.py", "a", "b", 1, false, false, 1⟩ 1)
                  "" "").notification, warning,
               (ExecState.mk
                  (init_context ⟨"f.py", "/p/f.py", "a", "b", 1, false, false, 1⟩ 1)
                  "" "").solution⟩) := by
  exact pipeline_output_iff_warning []
    ⟨"f.py", "/p/f.py", "a", "b", 1, false, false, 1⟩ [] 1
    ⟨init_context ⟨"f.py", "/p/f.py", "a", "b", 1, false, false, 1⟩ 1, "", ""⟩
    (by decide) (by decide) rfl

/-- C5 counterexample: the LLM response parses with `should_continue`
true but an empty `"title"` value; the run completes and `execute`
emits a `PipelineOutput` whose warning title is `""` - so "populated
with a non-empty title" is not the output condition. -/
theorem pipeline_output_with_empty_title :
    (execute (pipeline_agents ⟨⟨false, some ("r", some ⟨true, some "", none,
          some (1/2), none, none, []⟩), ""⟩, ⟨false, true, true⟩,
        ⟨false, false, false, 0, none⟩, "n", "c"⟩)
        [⟨"f.py", "/p/f.py", "a", "b", 1, false, false, 1⟩] 1).map
      (fun out => out.warning.title) = some "" := by
  decide

/-! ## Monotonic accumulation (C6) and confidence bounds (C9)

Both are per-stage invariants threaded along the executor's trace: the
four list lengths of the warning never shrink, and - under the stated
conditions on the parsed LLM data - its confidence stays in `[0, 1]`. -/

/-- The four list lengths of a warning; `None` counts as all zero. -/
def warn_lens (w : Option WarningMessage) : Nat × Nat × Nat × Nat :=
  match w with
  | none => (0, 0, 0, 0)
  | some w => (w.description.length, w.suggestions.length,
               w.affected_files.length, w.metadata.length)

/-- Componentwise order on the four lengths. -/
def lens_le (a b : Nat × Nat × Nat × Nat) : Prop :=
  a.1 ≤ b.1 ∧ a.2.1 ≤ b.2.1 ∧ a.2.2.1 ≤ b.2.2.1 ∧ a.2.2.2 ≤ b.2.2.2

theorem lens_le_refl (a : Nat × Nat × Nat × Nat) : lens_le a a :=
  ⟨le_refl _, le_refl _, le_refl _, le_refl _⟩

theorem lens_le_bot (w : Option WarningMessage) :
    lens_le (warn_lens none) (warn_lens w) :=
  ⟨Nat.zero_le _, Nat.zero_le _, Nat.zero_le _, Nat.zero_le _⟩

/-- A stage whose standard-branch non-cancelling results never shrink
the four lists of the warning relative to its input context. -/
def stage_monotone (s : Stage) : Prop :=
  ∀ ctx res, s.analyze ctx = some res → s.kind = .standard →
    res.signal ≠ .CANCEL →
    lens_le (warn_lens ctx.current_warning) (warn_lens res.warning)

/-- Along any run made of monotone stages, the warning's four lengths
form a non-decreasing chain: initial value, then the value after each
executed stage. -/
theorem exec_stages_lens_chain : ∀ (stages : List Stage) (st : ExecState),
    (∀ s ∈ stages, stage_monotone s) →
    List.Chain' lens_le (warn_lens st.context.current_warning ::
      (exec_stages stages st).2.map (fun e => warn_lens e.2)) := by
  intro stages
  induction stages with
  | nil =>
    intro st _
    simp [exec_stages]
  | cons a rest ih =>
    intro st hmono
    have hrest : ∀ s ∈ rest, stage_monotone s :=
      fun s hs => hmono s (List.mem_cons_of_mem _ hs)
    by_cases hsp : a.should_process st.context = false
    · simp only [exec_stages, if_pos hsp]
      exact ih st hrest
    · simp only [exec_stages, if_neg hsp]
      cases hana : a.analyze st.context with
      | none =>
        simp only [hana, List.map_cons]
        exact List.chain'_cons.mpr ⟨lens_le_refl _, ih st hrest⟩
      | some res =>
        simp only [hana]
        cases hkind : a.kind with
        | notification_writer =>
          simp only [List.map_cons]
          exact List.chain'_cons.mpr
            ⟨lens_le_refl _, ih { st with notification := res.text } hrest⟩
        | code_writer =>
          simp only [List.map_cons]
          exact List.chain'_cons.mpr
            ⟨lens_le_refl _, ih { st with solution := res.text } hrest⟩
        | standard =>
          by_cases hsig : res.signal = .CANCEL
          · simp only [if_pos hsig, List.map_cons, List.map_nil]
            exact List.chain'_cons.mpr ⟨lens_le_refl _, List.chain'_singleton _⟩
          · simp only [if_neg hsig, List.map_cons]
            exact List.chain'_cons.mpr
              ⟨hmono a (List.mem_cons_self _ _) st.context res hana hkind hsig,
               ih { st with
                 context := { st.context with current_warning := res.warning } }
                 hrest⟩

/-- `_enhance_warning_with_context` only appends: componentwise the four
lengths cannot decrease. -/
theorem enhance_warning_with_context_lens (w : WarningMessage)
    (a : CtxAnalysisParsed) (fc : Nat) :
    lens_le (warn_lens (some w))
      (warn_lens (some (enhance_warning_with_context w a fc))) := by
  simp only [enhance_warning_with_context, add_agent_analysis, warn_lens, lens_le]
  split_ifs <;> simp [List.length_append] <;> omega

/-- Its confidence update is exactly the upper-clamped sum. -/
theorem enhance_warning_with_context_confidence (w : WarningMessage)
    (a : CtxAnalysisParsed) (fc : Nat) :
    (enhance_warning_with_context w a fc).confidence
      = min 1 (w.confidence + a.confidence_impact.getD (1/10)) := by
  simp only [enhance_warning_with_context, add_agent_analysis]
  split_ifs <;> rfl

theorem notification_assessment_stage_monotone (o : NotifAssessOracle) :
    stage_monotone (notification_assessment_stage o) := by
  intro ctx res hana hkind hsig
  simp only [notification_assessment_stage, Option.some.injEq] at hana
  subst hana
  rcases o with ⟨db, de, sn⟩
  cases db <;> cases de <;> cases sn <;>
    cases hw : ctx.current_warning <;>
      simp_all [notification_assessment_analyze, warn_lens, lens_le]

/-- `_synthesize_final_result` either passes the warning through,
cancels, or returns the enhanced warning. -/
theorem synthesize_final_result_cases (o : ContextOracle) (w : WarningMessage) :
    synthesize_final_result o w = (.CONTINUE, some w)
    ∨ synthesize_final_result o w = (.CANCEL, none)
    ∨ ∃ a, o.final_analysis = some a
        ∧ synthesize_final_result o w
            = (.CONTINUE, some (enhance_warning_with_context w a o.file_count)) := by
  unfold synthesize_final_result
  by_cases hf : o.files_retrieved = false
  · rw [if_pos hf]
    left
    rfl
  · rw [if_neg hf]
    cases hfin : o.final_analysis with
    | none =>
      left
      rfl
    | some a =>
      by_cases hc : a.cancel_pipeline = true
      · right
        left
        simp [hc]
      · right
        right
        exact ⟨a, rfl, by simp [hc]⟩

theorem context_awareness_stage_monotone (o : ContextOracle) :
    stage_monotone (context_awareness_stage o) := by
  intro ctx res hana hkind hsig
  simp only [context_awareness_stage, Option.some.injEq] at hana
  subst hana
  cases hw : ctx.current_warning with
  | none => simp [context_awareness_analyze, hw, warn_lens, lens_le]
  | some w =>
    simp only [context_awareness_analyze, hw] at hsig ⊢
    split_ifs at hsig ⊢
    · exact lens_le_refl _
    · exact lens_le_refl _
    · rcases synthesize_final_result_cases o w with h | h | ⟨a, hfin, h⟩ <;>
        rw [h] at hsig ⊢
      · exact lens_le_refl _
      · exact absurd rfl hsig
      · exact enhance_warning_with_context_lens w a o.file_count

theorem syn_validation_stage_monotone : stage_monotone syn_validation_stage := by
  intro ctx res hana hkind hsig
  simp only [syn_validation_stage, Option.some.injEq] at hana
  subst hana
  cases hw : ctx.current_warning with
  | none => simp [syn_validation_analyze, hw, warn_lens, lens_le]
  | some w =>
    simp [syn_validation_analyze, hw, add_agent_analysis, warn_lens, lens_le]

theorem notification_writer_stage_monotone (text : String) :
    stage_monotone (notification_writer_stage text) := by
  intro ctx res hana hkind hsig
  exact absurd hkind (by simp [notification_writer_stage])

theorem code_writer_stage_monotone (text : String) :
    stage_monotone (code_writer_stage text) := by
  intro ctx res hana hkind hsig
  exact absurd hkind (by simp [code_writer_stage])

/-- C6: along every run of the concrete agent pipeline - any LLM
responses, any parsed data, any skip/cancel/exception pattern - the
lengths of `description`, `suggestions`, `affected_files` and `metadata`
are non-decreasing after each executed stage: stages only append, none
removes or replaces accumulated entries.  (`InitialAssessment`, the one
stage that builds a fresh warning instead of appending, always runs
first on the run's initial `None` warning, whose lengths count as
zero.) -/
theorem pipeline_warning_monotone (o : PipelineOracle) (ctx : AgentContext)
    (notification solution : String)
    (hnone : ctx.current_warning = none) :
    List.Chain' lens_le (warn_lens ctx.current_warning ::
      (exec_stages (pipeline_agents o) ⟨ctx, notification, solution⟩).2.map
        (fun e => warn_lens e.2)) := by
  have hrest : ∀ s ∈ [notification_assessment_stage o.notif_assess,
      context_awareness_stage o.context, syn_validation_stage,
      notification_writer_stage o.notification_text,
      code_writer_stage o.solution_text], stage_monotone s := by
    intro s hs
    simp only [List.mem_cons, List.not_mem_nil, or_false] at hs
    rcases hs with h | h | h | h | h <;> subst h
    · exact notification_assessment_stage_monotone _
    · exact context_awareness_stage_monotone _
    · exact syn_validation_stage_monotone
    · exact notification_writer_stage_monotone _
    · exact code_writer_stage_monotone _
  rw [show pipeline_agents o
      = initial_assessment_stage o.initial
        :: [notification_assessment_stage o.notif_assess,
            context_awareness_stage o.context, syn_validation_stage,
            notification_writer_stage o.notification_text,
            code_writer_stage o.solution_text] from rfl,
    exec_stages_cons_standard _ _ _
      ⟨(initial_assessment_analyze o.initial ctx).1,
       (initial_assessment_analyze o.initial ctx).2, ""⟩ rfl rfl rfl]
  by_cases hsig :
      (initial_assessment_analyze o.initial ctx).1 = PipelineResult.CANCEL
  · rw [if_pos hsig]
    simp only [List.map_cons, List.map_nil]
    exact List.chain'_cons.mpr ⟨lens_le_refl _, List.chain'_singleton _⟩
  · rw [if_neg hsig]
    simp only [List.map_cons]
    refine List.chain'_cons.mpr ⟨?_, ?_⟩
    · rw [hnone]
      exact lens_le_bot _
    · exact exec_stages_lens_chain _
        ⟨⟨ctx.old_version, ctx.new_version, ctx.file_path, ctx.project_id,
          (initial_assessment_analyze o.initial ctx).2⟩,
         notification, solution⟩ hrest

/-- Witness for C6 at a concrete run (trivial-change oracle). -/
theorem pipeline_warning_monotone_witness :
    List.Chain' lens_le
      (warn_lens (AgentContext.mk "a" "b" "/f.py" 1 none).current_warning ::
        (exec_stages (pipeline_agents ⟨⟨true, none, ""⟩, ⟨false, true, true⟩,
            ⟨false, true, false, 0, none⟩, "n", "c"⟩)
          ⟨⟨"a", "b", "/f.py", 1, none⟩, "", ""⟩).2.map
          (fun e => warn_lens e.2)) := by
  exact pipeline_warning_monotone
    ⟨⟨true, none, ""⟩, ⟨false, true, true⟩, ⟨false, true, false, 0, none⟩, "n", "c"⟩
    ⟨"a", "b", "/f.py", 1, none⟩ "" "" rfl

/-- The confidence bound of the data model: `confidence` in `[0, 1]`. -/
def conf_ok (w : WarningMessage) : Prop :=
  0 ≤ w.confidence ∧ w.confidence ≤ 1

/-- A stage whose standard-branch non-cancelling results satisfy `P`
whenever the incoming warning does. -/
def stage_preserves (P : WarningMessage → Prop) (s : Stage) : Prop :=
  ∀ ctx res, s.analyze ctx = some res → s.kind = .standard →
    res.signal ≠ .CANCEL →
    (∀ w, ctx.current_warning = some w → P w) →
    ∀ w, res.warning = some w → P w

/-- Along any run made of `P`-preserving stages starting from a
`P`-satisfying context, every warning recorded in the trace satisfies
`P`. -/
theorem exec_stages_inv (P : WarningMessage → Prop) :
    ∀ (stages : List Stage) (st : ExecState),
    (∀ s ∈ stages, stage_preserves P s) →
    (∀ w, st.context.current_warning = some w → P w) →
    ∀ e ∈ (exec_stages stages st).2, ∀ w, e.2 = some w → P w := by
  intro stages
  induction stages with
  | nil =>
    intro st _ _
    simp [exec_stages]
  | cons a rest ih =>
    intro st hP hst
    have ha := hP a (List.mem_cons_self _ _)
    have hrest : ∀ s ∈ rest, stage_preserves P s :=
      fun s hs => hP s (List.mem_cons_of_mem _ hs)
    by_cases hsp : a.should_process st.context = false
    · simp only [exec_stages, if_pos hsp]
      exact ih st hrest hst
    · simp only [exec_stages, if_neg hsp]
      cases hana : a.analyze st.context with
      | none =>
        simp only [hana]
        intro e he
        rcases List.mem_cons.mp he with rfl | he'
        · exact fun w hw => hst w hw
        · exact ih st hrest hst e he'
      | some res =>
        simp only [hana]
        cases hkind : a.kind with
        | notification_writer =>
          intro e he
          rcases List.mem_cons.mp he with rfl | he'
          · exact fun w hw => hst w hw
          · exact ih { st with notification := res.text } hrest hst e he'
        | code_writer =>
          intro e he
          rcases List.mem_cons.mp he with rfl | he'
          · exact fun w hw => hst w hw
          · exact ih { st with solution := res.text } hrest hst e he'
        | standard =>
          by_cases hsig : res.signal = .CANCEL
          · simp only [if_pos hsig]
            intro e he
            rcases List.mem_cons.mp he with rfl | he'
            · exact fun w hw => hst w hw
            · simp at he'
          · simp only [if_neg hsig]
            have hout : ∀ w, res.warning = some w → P w :=
              ha st.context res hana hkind hsig hst
            intro e he
            rcases List.mem_cons.mp he with rfl | he'
            · exact fun w hw => hout w hw
            · exact ih { st with
                context := { st.context with current_warning := res.warning } }
                hrest hout e he'

/-- Every warning `InitialAssessment.analyze` can emit has confidence in
`[0, 1]`, provided the confidence value read from a successfully parsed
response (with its `.get` default `0.5`) lies in `[0, 1]`; the fallback
paths use the constants `0.3` and `0.5`. -/
theorem initial_assessment_stage_preserves (o : InitialOracle)
    (hconf : ∀ r d, o.llm = some (r, some d) →
      0 ≤ d.confidence.getD (1/2) ∧ d.confidence.getD (1/2) ≤ 1) :
    stage_preserves conf_ok (initial_assessment_stage o) := by
  intro ctx res hana hkind hsig hin w hw
  simp only [initial_assessment_stage, Option.some.injEq] at hana
  subst hana
  unfold initial_assessment_analyze at hw
  by_cases htriv : o.is_trivial = true
  · rw [if_pos htriv] at hw
    simp at hw
  · rw [if_neg htriv] at hw
    cases hllm : o.llm with
    | none =>
      rw [hllm] at hw
      simp only [Option.some.injEq] at hw
      subst hw
      constructor <;> norm_num
    | some rp =>
      rcases rp with ⟨r, parsed⟩
      rw [hllm] at hw
      cases parsed with
      | none =>
        simp only [initial_parse_response, Option.some.injEq] at hw
        subst hw
        constructor <;> norm_num
      | some d =>
        simp only [initial_parse_response] at hw
        by_cases hsc : d.should_continue = false
        · rw [if_pos hsc] at hw
          simp at hw
        · rw [if_neg hsc] at hw
          simp only [Option.some.injEq] at hw
          subst hw
          exact hconf r d hllm

/-- `NotificationAssessment` passes the warning through unchanged, so it
preserves every property. -/
theorem notification_assessment_stage_preserves (P : WarningMessage → Prop)
    (o : NotifAssessOracle) :
    stage_preserves P (notification_assessment_stage o) := by
  intro ctx res hana hkind hsig hin w hw
  simp only [notification_assessment_stage, Option.some.injEq] at hana
  subst hana
  cases hcw : ctx.current_warning with
  | none => simp [notification_assessment_analyze, hcw] at hw
  | some w0 =>
    simp only [notification_assessment_analyze, hcw] at hw
    split_ifs at hw <;> simp only [Option.some.injEq] at hw <;>
      first
        | (subst hw; exact hin w0 hcw)
        | simp at hw

/-- `ContextAwareness` either passes the warning through or enhances it
with `min(1.0, confidence + confidence_impact)`; with a non-negative
impact a confidence in `[0, 1]` stays in `[0, 1]`. -/
theorem context_awareness_stage_preserves (o : ContextOracle)
    (himp : ∀ a, o.final_analysis = some a →
      0 ≤ a.confidence_impact.getD (1/10)) :
    stage_preserves conf_ok (context_awareness_stage o) := by
  intro ctx res hana hkind hsig hin w hw
  simp only [context_awareness_stage, Option.some.injEq] at hana
  subst hana
  cases hcw : ctx.current_warning with
  | none => simp [context_awareness_analyze, hcw] at hw
  | some w0 =>
    have hw0 := hin w0 hcw
    simp only [context_awareness_analyze, hcw] at hw
    split_ifs at hw
    · simp only [Option.some.injEq] at hw
      subst hw
      exact hw0
    · simp only [Option.some.injEq] at hw
      subst hw
      exact hw0
    · rcases synthesize_final_result_cases o w0 with h | h | ⟨a, hfin, h⟩ <;>
        rw [h] at hw <;> simp only [Option.some.injEq] at hw
      · subst hw
        exact hw0
      · exact absurd hw (by simp)
      · subst hw
        rw [conf_ok, enhance_warning_with_context_confidence]
        constructor
        · exact le_min (by norm_num)
            (add_nonneg hw0.1 (himp a hfin))
        · exact min_le_left _ _

/-- `SyntaxValidation` only appends metadata records; the confidence is
untouched. -/
theorem syn_validation_stage_preserves :
    stage_preserves conf_ok syn_validation_stage := by
  intro ctx res hana hkind hsig hin w hw
  simp only [syn_validation_stage, Option.some.injEq] at hana
  subst hana
  cases hcw : ctx.current_warning with
  | none => simp [syn_validation_analyze, hcw] at hw
  | some w0 =>
    have hw0 := hin w0 hcw
    simp only [syn_validation_analyze, hcw, Option.some.injEq] at hw
    subst hw
    exact ⟨hw0.1, hw0.2⟩

theorem notification_writer_stage_preserves (P : WarningMessage → Prop)
    (text : String) : stage_preserves P (notification_writer_stage text) := by
  intro ctx res hana hkind
  exact absurd hkind (by simp [notification_writer_stage])

theorem code_writer_stage_preserves (P : WarningMessage → Prop)
    (text : String) : stage_preserves P (code_writer_stage text) := by
  intro ctx res hana hkind
  exact absurd hkind (by simp [code_writer_stage])

/-- C9 amended: along every run of the concrete pipeline the warning's
confidence stays in `[0, 1]` PROVIDED the confidence value parsed by
`InitialAssessment` lies in `[0, 1]` and the `confidence_impact` parsed
by `ContextAwareness` is non-negative.  Without those hypotheses the
bound fails (see the counterexample): `InitialAssessment` copies the
parsed confidence without clamping, and `ContextAwareness` clamps only
the upper end via `min(1.0, ...)`. -/
theorem pipeline_confidence_bounds (o : PipelineOracle) (ctx : AgentContext)
    (notification solution : String)
    (hctx : ∀ w, ctx.current_warning = some w →
      0 ≤ w.confidence ∧ w.confidence ≤ 1)
    (hconf : ∀ r d, o.initial.llm = some (r, some d) →
      0 ≤ d.confidence.getD (1/2) ∧ d.confidence.getD (1/2) ≤ 1)
    (himp : ∀ a, o.context.final_analysis = some a →
      0 ≤ a.confidence_impact.getD (1/10)) :
    ∀ e ∈ (exec_stages (pipeline_agents o) ⟨ctx, notification, solution⟩).2,
      ∀ w, e.2 = some w → 0 ≤ w.confidence ∧ w.confidence ≤ 1 := by
  have hP : ∀ s ∈ pipeline_agents o, stage_preserves conf_ok s := by
    intro s hs
    simp only [pipeline_agents, List.mem_cons, List.not_mem_nil, or_false] at hs
    rcases hs with h | h | h | h | h | h <;> subst h
    · exact initial_assessment_stage_preserves _ hconf
    · exact notification_assessment_stage_preserves conf_ok _
    · exact context_awareness_stage_preserves _ himp
    · exact syn_validation_stage_preserves
    · exact notification_writer_stage_preserves conf_ok _
    · exact code_writer_stage_preserves conf_ok _
  exact exec_stages_inv conf_ok (pipeline_agents o)
    ⟨ctx, notification, solution⟩ hP hctx

/-- Witness for C9's amended claim: the LLM call raises, so the run uses
the fallback confidence `0.3`; all trace warnings stay in bounds.  The
trace is checked entry by entry. -/
theorem pipeline_confidence_bounds_witness :
    ((exec_stages (pipeline_agents ⟨⟨false, none, ""⟩, ⟨false, true, true⟩,
        ⟨false, false, false, 0, none⟩, "n", "c"⟩)
        ⟨⟨"a", "b", "/f.py", 1, none⟩, "", ""⟩).2.all
      (fun e => match e.2 with
        | none => true
        | some w => decide (0 ≤ w.confidence) && decide (w.confidence ≤ 1)))
      = true := by
  have h := pipeline_confidence_bounds
    ⟨⟨false, none, ""⟩, ⟨false, true, true⟩, ⟨false, false, false, 0, none⟩,
     "n", "c"⟩
    ⟨"a", "b", "/f.py", 1, none⟩ "" "" (by simp) (by simp) (by simp)
  rw [List.all_eq_true]
  intro e he
  cases hw : e.2 with
  | none => rfl
  | some w =>
    have hb := h e he w hw
    simp [hb.1, hb.2]

/-- C9 counterexample: a parsed response carrying `"confidence": 1.5`
makes `InitialAssessment._parse_response` store confidence `3/2` in the
warning without clamping, so after that stage's `analyze` the bound
`confidence <= 1` fails. -/
theorem confidence_not_clamped :
    initial_assessment_analyze
        ⟨false, some ("r", some ⟨true, none, none, some (3/2), none, none, []⟩), ""⟩
        ⟨"a", "b", "/f.py", 1, none⟩
      = (.CONTINUE, some ⟨"Code change requires review", "medium",
          ["Potential issues detected"], [], ["/f.py"], 3/2,
          [⟨"InitialAssessment", "", 3/2⟩]⟩)
    ∧ ¬((3 : ℚ)/2 ≤ 1) := by
  constructor
  · rfl
  · norm_num

end Ducky
